import Mathlib

/-!
Verification of `httpserver`, a multiple-host HTTP and HTTPS reverse proxy.

The definitions below are a shallow embedding of the Go program in
`httpserver.go`.  Pure data (URLs, headers, the host-to-destination map,
the configuration) becomes Lean structures and association lists; the
request handlers become pure functions from a request to a response value;
the handful of places where the program calls into the Go standard library
(`url.Parse` failure, the reverse proxy's `X-Forwarded-For` logic, the
`ServeMux` dispatch, `errgroup.Group`) are modelled explicitly and each
such definition says in its doc comment what library behaviour it embeds.
-/

set_option autoImplicit false

namespace Httpserver

/-- Embeds `net/url.Userinfo` (username, password, and whether a password
was supplied, as produced by `url.UserPassword`). -/
structure Userinfo where
  username : String
  password : String
  passwordSet : Bool
deriving DecidableEq, Repr

/-- Embeds the fields of Go's `net/url.URL` that the program reads or
writes: `Scheme`, `User`, `Host`, `Path`, `RawQuery`, `Fragment`. -/
structure URL where
  scheme : String
  user : Option Userinfo
  host : String
  path : String
  rawQuery : String
  fragment : String
deriving DecidableEq, Repr

/-- `url.UserPassword(username, password)`. -/
def userPassword (username password : String) : Userinfo :=
  { username := username, password := password, passwordSet := true }

/-- Embeds `net/http.Header` (`map[string][]string`).  The Go server hands
handlers canonicalised keys, so exact string comparison on keys models the
map lookup. -/
abbrev Headers := List (String × List String)

/-- Raw map indexing `h[k]`: the value bound to the first occurrence of
key `k`, if any. -/
def headerFind (h : Headers) (k : String) : Option (List String) :=
  match h with
  | [] => none
  | (k0, v0) :: rest => if k0 = k then some v0 else headerFind rest k

/-- `Header.Set(k, v)` for an already-canonical key: replace the binding
of `k` (or add one) so that the whole value is `vs`. -/
def headerSet (h : Headers) (k : String) (vs : List String) : Headers :=
  match h with
  | [] => [(k, vs)]
  | (k0, v0) :: rest => if k0 = k then (k, vs) :: rest else (k0, v0) :: headerSet rest k vs

/-- Embeds the parts of `net/http.Request` the program uses: the `Host`
header, the parsed request URL, the header map, the decoded result of
`r.BasicAuth()` (the `Authorization: Basic` credentials, if present), and
the request body (which the handlers never read). -/
structure Request where
  host : String
  url : URL
  header : Headers
  basicAuth : Option (String × String)
  body : String
deriving DecidableEq, Repr

/-- The route table: Go's `map[string]url.URL` built by `toURLs`, as an
association list with exact-match lookup (Go map indexing). -/
abbrev Proxy := List (String × URL)

/-- Go map indexing `proxy[host]`: the destination bound to the first
occurrence of `host`, if any. -/
def lookupHost (p : Proxy) (h : String) : Option URL :=
  match p with
  | [] => none
  | (k, d) :: rest => if k = h then some d else lookupHost rest h

/-- Responses the plaintext handler can produce: `http.Error` with a
status, or `http.Redirect` with a status and a Location URL. -/
inductive HttpResponse where
  | error (status : Nat)
  | redirect (status : Nat) (location : URL)
deriving DecidableEq, Repr

/-- Embeds `httpHandler` from httpserver.go: reject unmapped hosts with
502; otherwise redirect to the https equivalent of the request URL, with
`Host` copied from the request's Host header and the userinfo taken from
the request's basic-auth credentials when present.  `http.StatusFound`
is 302. -/
def httpHandler (proxy : Proxy) (r : Request) : HttpResponse :=
  match lookupHost proxy r.host with
  | none => .error 502
  | some _ =>
    let u1 : URL := { r.url with scheme := "https", host := r.host }
    let u2 : URL :=
      match r.basicAuth with
      | some (username, password) => { u1 with user := some (userPassword username password) }
      | none => u1
    .redirect 302 u2

/-- Embeds `director` from httpserver.go, which runs inside the reverse
proxy on the cloned outbound request.  `Except.error msg` models the
`panic("unknown host " + r.Host)` branch; `Except.ok` carries the
rewritten request. -/
def director (proxy : Proxy) (r : Request) : Except String Request :=
  match lookupHost proxy r.host with
  | none => .error ("unknown host " ++ r.host)
  | some dest =>
    let u1 : URL := { r.url with scheme := dest.scheme, host := dest.host }
    let u2 : URL := if dest.path ≠ "" then { u1 with path := dest.path ++ u1.path } else u1
    let h2 : Headers :=
      if (headerFind r.header "User-Agent").isNone then
        headerSet r.header "User-Agent" [""]
      else r.header
    .ok { r with url := u2, header := h2 }

/-- Responses the secure handler can produce: `http.Error` with a status,
delegation to the reverse proxy with the director-rewritten outbound
request, or a panic escaping from the director. -/
inductive HttpsResponse where
  | error (status : Nat)
  | forward (out : Request)
  | panicked (msg : String)
deriving DecidableEq, Repr

/-- Embeds `httpsHandler` from httpserver.go: reject unmapped hosts with
502; otherwise hand the request to the reverse proxy, whose Director is
`director proxy`. -/
def httpsHandler (proxy : Proxy) (r : Request) : HttpsResponse :=
  match lookupHost proxy r.host with
  | none => .error 502
  | some _ =>
    match director proxy r with
    | .ok out => .forward out
    | .error msg => .panicked msg

/-- Whether a secure response is an escaped panic. -/
def HttpsResponse.isPanicked : HttpsResponse → Bool
  | .panicked _ => true
  | _ => false

/-! ### The reverse proxy's forwarding-header step

`httpsHandler` installs `director` as the `Director` of a
`httputil.ReverseProxy`.  On that path the standard library itself, after
running the director on the cloned outbound request, appends the client IP
to `X-Forwarded-For` (net/http/httputil/reverseproxy.go, `ServeHTTP`):
it splits the client IP out of `RemoteAddr`, and on success joins any
prior `X-Forwarded-For` values with ", ", appends the client IP, and
`Set`s the header — unless the prior binding exists with a nil value, in
which case the header is deliberately left alone (Go issue 38079).  No
`X-Forwarded-Proto` or `X-Forwarded-Host` header is touched on the
Director path. -/

/-- Embeds the `X-Forwarded-For` fragment of
`httputil.ReverseProxy.ServeHTTP` run on the director's output.
`clientIP` is the result of `net.SplitHostPort(req.RemoteAddr)` —
`none` when that split fails, in which case nothing is done. -/
def addXForwardedFor (clientIP : Option String) (r : Request) : Request :=
  match clientIP with
  | none => r
  | some ip =>
    match headerFind r.header "X-Forwarded-For" with
    | none => { r with header := headerSet r.header "X-Forwarded-For" [ip] }
    | some [] => r
    | some prior =>
      { r with header :=
          headerSet r.header "X-Forwarded-For" [String.intercalate ", " prior ++ ", " ++ ip] }

/-- The complete outbound request the reverse proxy sends for a secure
request: the director's rewrite followed by the library's
`X-Forwarded-For` step. -/
def outboundRequest (proxy : Proxy) (clientIP : Option String) (r : Request) :
    Except String Request :=
  (director proxy r).map (addXForwardedFor clientIP)

/-- The named header of the outbound request, `none` when the director
panicked. -/
def outboundHeader (proxy : Proxy) (clientIP : Option String) (r : Request) (k : String) :
    Option (List String) :=
  match outboundRequest proxy clientIP r with
  | .ok out => headerFind out.header k
  | .error _ => none

/-! ### Configuration and startup validation -/

/-- Embeds the `Certs` configuration struct. -/
structure Certs where
  auto : Bool
  certDir : String
  certFile : String
  keyFile : String
deriving DecidableEq, Repr

/-- Embeds the `Conf` configuration struct; `proxy` is the raw
host-to-destination string map before URL parsing. -/
structure Conf where
  domains : List String
  proxy : List (String × String)
  certs : Certs
  wellKnown : String
deriving DecidableEq, Repr

/-- Models the failure condition of `net/url.Parse` as used by `toURLs`:
parsing fails on ASCII control characters in the URL string.  (No claim
depends on a finer model of `url.Parse`; only success versus failure of
`toURLs` matters to `checkConf`.) -/
def urlParseOk (s : String) : Bool :=
  s.toList.all (fun c => decide (0x20 ≤ c.toNat) && decide (c.toNat ≠ 0x7f))

/-- Whether `toURLs` succeeds on the raw proxy map: every destination
string must parse. -/
def toURLsOk (proxy : List (String × String)) : Bool :=
  proxy.all (fun kv => urlParseOk kv.2)

/-- Embeds `checkConf` from httpserver.go: the ordered `switch` over the
certificate fields, then the `toURLs` trial parse.  `some msg` is the
returned error, `none` success. -/
def checkConf (c : Conf) : Option String :=
  if c.certs.auto && c.certs.certDir == "" then
    some "require certs.certDir if certs.auto == true"
  else if !c.certs.auto && c.certs.certFile == "" then
    some "require certs.certFile if certs.auto == false"
  else if !c.certs.auto && c.certs.keyFile == "" then
    some "require certs.keyFile if certs.auto == false"
  else if !(toURLsOk c.proxy) then
    some "parse destination URL"
  else
    none

/-- Outcome of `run`'s startup sequence after the configuration has been
read: either `checkConf` fails and `run` returns the error before either
`g.Go` call (no listener socket is opened), or both listeners are
started. -/
inductive RunOutcome where
  | confError (msg : String)
  | listening
deriving DecidableEq, Repr

/-- Embeds the startup control flow of `run` from httpserver.go between
configuration parsing and the `g.Go` calls: a `checkConf` error aborts
before any listener starts. -/
def runStartup (c : Conf) : RunOutcome :=
  match checkConf c with
  | some e => .confError e
  | none => .listening

/-! ### The plaintext mux -/

/-- Responses of the port-80 mux: a file served from the well-known
directory (at the path with the `/.well-known/` segment stripped), or
whatever `httpHandler` produces. -/
inductive MuxResponse where
  | wellKnownFile (path : String)
  | plain (resp : HttpResponse)
deriving DecidableEq, Repr

/-- The pattern registered for the well-known directory. -/
def wellKnownPattern : String := "/.well-known/"

/-- Character-wise string prefix test (what `ServeMux`'s pattern match
and `StripPrefix` perform on the request path). -/
def pathUnder (pat p : String) : Bool :=
  pat.toList.isPrefixOf p.toList

/-- Embeds `run`'s port-80 `ServeMux`: pattern "/" is `httpHandler`, and
when `c.WellKnown` is non-empty, pattern "/.well-known/" is
`http.StripPrefix("/.well-known/", http.FileServer(http.Dir(c.WellKnown)))`.
`ServeMux` dispatches a (cleaned) request path to the handler with the
longest matching registered pattern, ignoring the Host header, so a path
under `/.well-known/` goes to the file server exactly when that pattern
is registered. -/
def muxDispatch (wellKnown : String) (proxy : Proxy) (r : Request) : MuxResponse :=
  if wellKnown ≠ "" ∧ pathUnder wellKnownPattern r.url.path then
    .wellKnownFile (r.url.path.drop wellKnownPattern.length)
  else
    .plain (httpHandler proxy r)

/-! ### The orchestrator

`run` starts the two listeners with `errgroup.Group.Go` and returns
`g.Wait()`.  For this `errgroup` (no context): each `Go`-launched function
runs until it returns an error (`ListenAndServe` never returns nil);
`Group.err` records the first returned error only (a `sync.Once`); and
`Wait` blocks until every launched function has returned, then yields
`Group.err`.  The model below is a step function over the listeners'
exit events, in the order those returns happen. -/

/-- Exit events: the port-80 or port-443 listener returns with an
error. -/
inductive GoEvent where
  | httpExit (e : String)
  | httpsExit (e : String)
deriving DecidableEq, Repr

/-- The error an exit event carries. -/
def GoEvent.err : GoEvent → String
  | .httpExit e => e
  | .httpsExit e => e

/-- State of the `errgroup`: whether each listener has returned (and its
error), and the first error recorded by the group's `sync.Once`. -/
structure GroupState where
  httpErr : Option String
  httpsErr : Option String
  firstErr : Option String
deriving DecidableEq, Repr

/-- The group before any listener has returned. -/
def initGroup : GroupState := { httpErr := none, httpsErr := none, firstErr := none }

/-- `sync.Once` on the group error: only the first error is kept. -/
def recordErr (cur : Option String) (e : String) : Option String :=
  match cur with
  | some e0 => some e0
  | none => some e

/-- One listener return.  A goroutine returns at most once; a duplicate
event for an already-returned listener is ignored (it cannot occur). -/
def stepGroup (s : GroupState) (ev : GoEvent) : GroupState :=
  match ev with
  | .httpExit e =>
    if s.httpErr.isSome then s
    else { s with httpErr := some e, firstErr := recordErr s.firstErr e }
  | .httpsExit e =>
    if s.httpsErr.isSome then s
    else { s with httpsErr := some e, firstErr := recordErr s.firstErr e }

/-- The group state after a sequence of listener returns. -/
def runGroup (evs : List GoEvent) : GroupState :=
  evs.foldl stepGroup initGroup

/-- Whether `g.Wait()` has returned: it blocks until BOTH launched
functions have returned. -/
def waitReturned (s : GroupState) : Bool :=
  s.httpErr.isSome && s.httpsErr.isSome

/-- Whether a sequence of events contains a port-80 exit. -/
def hasHttpExit : List GoEvent → Bool
  | [] => false
  | .httpExit _ :: _ => true
  | .httpsExit _ :: rest => hasHttpExit rest

/-- Whether a sequence of events contains a port-443 exit. -/
def hasHttpsExit : List GoEvent → Bool
  | [] => false
  | .httpExit _ :: rest => hasHttpsExit rest
  | .httpsExit _ :: _ => true

/-! ### Projections used to state the claims -/

/-- The URL of the director's outbound request, `none` on the panic
branch. -/
def directorURL (proxy : Proxy) (r : Request) : Option URL :=
  match director proxy r with
  | .ok out => some out.url
  | .error _ => none

/-- The `User-Agent` header of the director's outbound request, `none` on
the panic branch. -/
def directorUAHeader (proxy : Proxy) (r : Request) : Option (Option (List String)) :=
  match director proxy r with
  | .ok out => some (headerFind out.header "User-Agent")
  | .error _ => none

/-- Whether the reverse proxy produced an outbound request (rather than a
director panic). -/
def outboundOk (proxy : Proxy) (clientIP : Option String) (r : Request) : Bool :=
  match outboundRequest proxy clientIP r with
  | .ok _ => true
  | .error _ => false

/-! ### Helper lemmas on headers and lookup -/

theorem headerFind_headerSet_same (h : Headers) (k : String) (vs : List String) :
    headerFind (headerSet h k vs) k = some vs := by
  induction h with
  | nil => simp [headerSet, headerFind]
  | cons kv rest ih =>
    obtain ⟨k0, v0⟩ := kv
    by_cases hk : k0 = k
    · simp [headerSet, headerFind, hk]
    · simp [headerSet, headerFind, hk, ih]

theorem headerFind_headerSet_ne (h : Headers) (k k0 : String) (vs : List String)
    (hne : k0 ≠ k) : headerFind (headerSet h k vs) k0 = headerFind h k0 := by
  have hne2 : k ≠ k0 := fun he => hne he.symm
  induction h with
  | nil => simp [headerSet, headerFind, hne2]
  | cons kv rest ih =>
    obtain ⟨k1, v1⟩ := kv
    by_cases hk : k1 = k
    · subst hk
      simp [headerSet, headerFind, hne2]
    · simp [headerSet, headerFind, hk, ih]

theorem lookupHost_eq_none (p : Proxy) (h : String)
    (habs : ∀ kv ∈ p, kv.1 ≠ h) : lookupHost p h = none := by
  induction p with
  | nil => rfl
  | cons kv rest ih =>
    obtain ⟨k, d⟩ := kv
    have hk : k ≠ h := habs (k, d) (List.mem_cons_self _ _)
    simp only [lookupHost, if_neg hk]
    exact ih (fun kv hkv => habs kv (List.mem_cons_of_mem _ hkv))

/-! ### Concrete sample values (used by witnesses and counterexamples) -/

/-- A destination with no path, as in `"a.example": "http://127.0.0.1:9001"`. -/
def destA : URL :=
  { scheme := "http", user := none, host := "127.0.0.1:9001", path := ""
    rawQuery := "", fragment := "" }

/-- A destination with a path, as in the test's
`"sub.foo.com": "http://:9002/foo/sub"`. -/
def destSub : URL :=
  { scheme := "http", user := none, host := "127.0.0.1:9002", path := "/foo/sub"
    rawQuery := "", fragment := "" }

/-- A concrete route table. -/
def proxyEx : Proxy := [("a.example", destA), ("sub.foo.com", destSub)]

/-- A request for the destination that has a path, with a
duplicate-slash path of its own. -/
def reqSub : Request :=
  { host := "sub.foo.com"
    url := { scheme := "", user := none, host := "", path := "//bar"
             rawQuery := "key=val", fragment := "" }
    header := [], basicAuth := none, body := "" }

/-- A request carrying basic-auth credentials and a fragment. -/
def reqBasicAuth : Request :=
  { host := "a.example"
    url := { scheme := "http", user := none, host := "", path := "/p"
             rawQuery := "q=1", fragment := "frag" }
    header := [], basicAuth := some ("alice", "secret"), body := "B" }

/-- A request carrying a `User-Agent` header. -/
def reqUA : Request :=
  { host := "a.example"
    url := { scheme := "", user := none, host := "", path := "/"
             rawQuery := "", fragment := "" }
    header := [("User-Agent", ["curl/8"])], basicAuth := none, body := "" }

/-- A request for a host that is not in `proxyEx`. -/
def reqUnknown : Request :=
  { host := "unknown.org"
    url := { scheme := "", user := none, host := "", path := "/"
             rawQuery := "", fragment := "" }
    header := [], basicAuth := none, body := "" }

/-! ### Claims -/

/-- Claim C1: for every configured host mapped to destination `dest`, the
director sets the outgoing request's scheme and authority to `dest`'s, and
when `dest` has a non-empty path it prepends that path to the incoming
path by plain string concatenation, exactly once; every other component of
the URL (userinfo, query, fragment) — and, when the prefix is empty, the
path itself — is byte-for-byte unchanged. -/
theorem director_rewrite_url (proxy : Proxy) (r : Request) (dest : URL)
    (h : lookupHost proxy r.host = some dest) :
    directorURL proxy r = some
      { r.url with
        scheme := dest.scheme
        host := dest.host
        path := if dest.path ≠ "" then dest.path ++ r.url.path else r.url.path } := by
  simp only [directorURL, director, h]
  split <;> rename_i hp <;> simp [hp]

/-- Witness for C1: the configured prefix `/foo/sub` is prepended once to
the incoming path `//bar`, and the duplicate slashes survive
unnormalized. -/
theorem director_rewrite_url_witness :
    lookupHost proxyEx reqSub.host = some destSub ∧
    directorURL proxyEx reqSub = some
      { scheme := "http", user := none, host := "127.0.0.1:9002"
        path := "/foo/sub//bar", rawQuery := "key=val", fragment := "" } := by
  refine ⟨by decide, ?_⟩
  rw [director_rewrite_url proxyEx reqSub destSub (by decide)]
  decide

/-- Claim C2: for every host present in the route table, the plaintext
handler answers with a 302 redirect whose Location is the request URL with
the scheme forced to https and the host set to the Host header; path,
query, and fragment pass through unchanged, the userinfo is the request's
basic-auth credentials when it carries any and the URL's own userinfo
otherwise, and the response does not depend on (or alter) the request
body. -/
theorem httpHandler_redirect_preserves_url (proxy : Proxy) (r : Request) (dest : URL)
    (h : lookupHost proxy r.host = some dest) :
    httpHandler proxy r = .redirect 302
      { scheme := "https"
        user := match r.basicAuth with
          | some (username, password) => some (userPassword username password)
          | none => r.url.user
        host := r.host
        path := r.url.path
        rawQuery := r.url.rawQuery
        fragment := r.url.fragment } ∧
    (∀ b : String, httpHandler proxy { r with body := b } = httpHandler proxy r) := by
  constructor
  · simp only [httpHandler, h]
    cases hba : r.basicAuth with
    | none => simp [hba]
    | some cred => obtain ⟨username, password⟩ := cred; simp [hba]
  · intro b
    simp [httpHandler, h]

/-- Witness for C2: a basic-auth request to `a.example` redirects to the
https URL with credentials, path, query and fragment intact, and changing
the body does not change the response. -/
theorem httpHandler_redirect_preserves_url_witness :
    httpHandler proxyEx reqBasicAuth = .redirect 302
      { scheme := "https", user := some (userPassword "alice" "secret")
        host := "a.example", path := "/p", rawQuery := "q=1", fragment := "frag" } ∧
    httpHandler proxyEx { reqBasicAuth with body := "other" } =
      httpHandler proxyEx reqBasicAuth := by
  have h := httpHandler_redirect_preserves_url proxyEx reqBasicAuth destA (by decide)
  exact ⟨h.1, h.2 "other"⟩

/-- Claim C3: a request whose Host is not a key of the route table is
answered with status 502 (a Bad-Gateway-class status) by both the
plaintext and the secure handler, and the secure handler never reaches the
reverse proxy for it (the response is an error, not a forward). -/
theorem unmapped_host_rejected (proxy : Proxy) (r : Request)
    (h : lookupHost proxy r.host = none) :
    httpHandler proxy r = .error 502 ∧ httpsHandler proxy r = .error 502 := by
  constructor
  · simp [httpHandler, h]
  · simp [httpsHandler, h]

/-- Witness for C3: `unknown.org` is not in the table; both listeners
answer 502. -/
theorem unmapped_host_rejected_witness :
    httpHandler proxyEx reqUnknown = .error 502 ∧
    httpsHandler proxyEx reqUnknown = .error 502 :=
  unmapped_host_rejected proxyEx reqUnknown (by decide)

/-- Claim C4: the director's panic branch is unreachable through the
secure handler: for every route table and every request, the secure
handler never produces an escaped panic, because it branches on the host
lookup before delegating to the reverse proxy. -/
theorem director_panic_unreachable (proxy : Proxy) (r : Request) :
    (httpsHandler proxy r).isPanicked = false := by
  unfold httpsHandler
  cases h : lookupHost proxy r.host with
  | none => rfl
  | some dest => simp [director, h, HttpsResponse.isPanicked]

/-- Claim C5: for every request to a mapped host, the director sets the
User-Agent header to the empty string exactly when the original request
carried no User-Agent header, and leaves an existing User-Agent value
untouched. -/
theorem director_user_agent_default (proxy : Proxy) (r : Request) (dest : URL)
    (h : lookupHost proxy r.host = some dest) :
    (headerFind r.header "User-Agent" = none →
      directorUAHeader proxy r = some (some [""])) ∧
    (∀ vs, headerFind r.header "User-Agent" = some vs →
      directorUAHeader proxy r = some (some vs)) := by
  constructor
  · intro hua
    simp [directorUAHeader, director, h, hua, headerFind_headerSet_same]
  · intro vs hua
    simp [directorUAHeader, director, h, hua]

/-- Witness for C5: a request without a User-Agent gets the empty value;
a request with `curl/8` keeps it. -/
theorem director_user_agent_default_witness :
    directorUAHeader proxyEx reqSub = some (some [""]) ∧
    directorUAHeader proxyEx reqUA = some (some ["curl/8"]) := by
  constructor
  · exact (director_user_agent_default proxyEx reqSub destSub (by decide)).1 (by decide)
  · exact (director_user_agent_default proxyEx reqUA destA (by decide)).2 ["curl/8"] (by decide)

/-! ### Helper lemmas for the forwarding-header step -/

/-- The request the director's mapped-host branch builds. -/
def directorOut (dest : URL) (r : Request) : Request :=
  { r with
    url :=
      if dest.path ≠ "" then
        { r.url with scheme := dest.scheme, host := dest.host, path := dest.path ++ r.url.path }
      else
        { r.url with scheme := dest.scheme, host := dest.host }
    header :=
      if (headerFind r.header "User-Agent").isNone then
        headerSet r.header "User-Agent" [""]
      else r.header }

theorem director_eq_ok (proxy : Proxy) (r : Request) (dest : URL)
    (h : lookupHost proxy r.host = some dest) :
    director proxy r = Except.ok (directorOut dest r) := by
  simp only [director, directorOut, h]

theorem directorOut_header_ne (dest : URL) (r : Request) (k : String)
    (hk : k ≠ "User-Agent") :
    headerFind (directorOut dest r).header k = headerFind r.header k := by
  simp only [directorOut]
  split
  · exact headerFind_headerSet_ne _ _ _ _ hk
  · rfl

theorem addXForwardedFor_find (r : Request) (ip : String) :
    headerFind (addXForwardedFor (some ip) r).header "X-Forwarded-For" =
      match headerFind r.header "X-Forwarded-For" with
      | none => some [ip]
      | some [] => some []
      | some (v :: vs) => some [String.intercalate ", " (v :: vs) ++ ", " ++ ip] := by
  cases hf : headerFind r.header "X-Forwarded-For" with
  | none => simp [addXForwardedFor, hf, headerFind_headerSet_same]
  | some vs =>
    cases vs with
    | nil => simp [addXForwardedFor, hf]
    | cons v vs => simp [addXForwardedFor, hf, headerFind_headerSet_same]

theorem addXForwardedFor_find_ne (r : Request) (cip : Option String) (k : String)
    (hk : k ≠ "X-Forwarded-For") :
    headerFind (addXForwardedFor cip r).header k = headerFind r.header k := by
  cases cip with
  | none => rfl
  | some ip =>
    cases hf : headerFind r.header "X-Forwarded-For" with
    | none => simp [addXForwardedFor, hf, headerFind_headerSet_ne _ _ _ _ hk]
    | some vs =>
      cases vs with
      | nil => simp [addXForwardedFor, hf]
      | cons v vs => simp [addXForwardedFor, hf, headerFind_headerSet_ne _ _ _ _ hk]

/-- A request that already carries an `X-Forwarded-For` value from an
upstream hop and no `X-Forwarded-Proto`. -/
def reqXff : Request :=
  { host := "a.example"
    url := { scheme := "https", user := none, host := "", path := "/p"
             rawQuery := "", fragment := "" }
    header := [("X-Forwarded-For", ["203.0.113.7"])], basicAuth := none, body := "" }

/-- Counterexample to C6 as stated: forwarding a concrete request whose
headers carry no protocol information produces an outbound request that
still carries none — neither `X-Forwarded-Proto` nor `Forwarded` is
added, so the rewrite does not add a header carrying the original
protocol. -/
theorem outbound_no_proto_counterexample :
    outboundOk proxyEx (some "198.51.100.2") reqXff = true ∧
    outboundHeader proxyEx (some "198.51.100.2") reqXff "X-Forwarded-Proto" = none ∧
    outboundHeader proxyEx (some "198.51.100.2") reqXff "Forwarded" = none := by
  refine ⟨rfl, rfl, rfl⟩

/-- Claim C6 (amended): for every forwarded request, the forwarding path
appends the originating client address to `X-Forwarded-For` without
overwriting values set by an upstream hop — pre-existing values are kept,
comma-joined, ahead of the new address, and the header is created fresh
when absent — but no header carrying the original protocol is added:
`X-Forwarded-Proto` stays absent when the incoming request lacks it. -/
theorem outbound_xff_appends (proxy : Proxy) (r : Request) (dest : URL) (ip : String)
    (h : lookupHost proxy r.host = some dest) :
    (headerFind r.header "X-Forwarded-For" = none →
      outboundHeader proxy (some ip) r "X-Forwarded-For" = some [ip]) ∧
    (∀ v vs, headerFind r.header "X-Forwarded-For" = some (v :: vs) →
      outboundHeader proxy (some ip) r "X-Forwarded-For" =
        some [String.intercalate ", " (v :: vs) ++ ", " ++ ip]) ∧
    (headerFind r.header "X-Forwarded-Proto" = none →
      outboundHeader proxy (some ip) r "X-Forwarded-Proto" = none) := by
  have hdir := director_eq_ok proxy r dest h
  have hout : outboundRequest proxy (some ip) r =
      Except.ok (addXForwardedFor (some ip) (directorOut dest r)) := by
    simp [outboundRequest, hdir, Except.map]
  have hxffKey : headerFind (directorOut dest r).header "X-Forwarded-For" =
      headerFind r.header "X-Forwarded-For" :=
    directorOut_header_ne dest r _ (by decide)
  refine ⟨?_, ?_, ?_⟩
  · intro hxff
    have hd : headerFind (directorOut dest r).header "X-Forwarded-For" = none :=
      hxffKey.trans hxff
    simp [outboundHeader, hout, addXForwardedFor_find, hd]
  · intro v vs hxff
    have hd : headerFind (directorOut dest r).header "X-Forwarded-For" = some (v :: vs) :=
      hxffKey.trans hxff
    simp [outboundHeader, hout, addXForwardedFor_find, hd]
  · intro hp
    have h1 := addXForwardedFor_find_ne (directorOut dest r) (some ip) "X-Forwarded-Proto"
      (by decide)
    have h2 := directorOut_header_ne dest r "X-Forwarded-Proto" (by decide)
    simp [outboundHeader, hout, h1, h2, hp]

/-- Witness for the amended C6: a prior upstream value is kept and the
client address appended after it; with no prior value the header is just
the client address. -/
theorem outbound_xff_appends_witness :
    outboundHeader proxyEx (some "198.51.100.2") reqXff "X-Forwarded-For" =
      some ["203.0.113.7, 198.51.100.2"] ∧
    outboundHeader proxyEx (some "198.51.100.2") reqSub "X-Forwarded-For" =
      some ["198.51.100.2"] := by
  constructor
  · have h := (outbound_xff_appends proxyEx reqXff destA "198.51.100.2" (by decide)).2.1
      "203.0.113.7" [] (by decide)
    simpa using h
  · exact (outbound_xff_appends proxyEx reqSub destSub "198.51.100.2" (by decide)).1 (by decide)

/-- An Automatic-certificates configuration with an empty domains set but
a cache directory. -/
def confAutoNoDomains : Conf :=
  { domains := [], proxy := []
    certs := { auto := true, certDir := "/var/cache/certs", certFile := "", keyFile := "" }
    wellKnown := "" }

/-- Counterexample to C7 as stated: a configuration selecting the
Automatic variant with an EMPTY domains set passes validation and startup
proceeds to the listeners — `checkConf` does not require a non-empty
domains set. -/
theorem checkConf_empty_domains_counterexample :
    confAutoNoDomains.certs.auto = true ∧
    confAutoNoDomains.domains = [] ∧
    checkConf confAutoNoDomains = none ∧
    runStartup confAutoNoDomains = RunOutcome.listening := by
  refine ⟨rfl, rfl, rfl, rfl⟩

/-- Claim C7 (amended): validation accepts a configuration exactly when
the Automatic variant comes with a non-empty cache directory (the domains
set may be empty), the Static variant comes with both the certificate and
the key file path, and every route destination parses; any violation is
reported as an error, and on an error startup aborts before any listener
socket is opened. -/
theorem checkConf_requirements (c : Conf) :
    (checkConf c = none ↔
      ((c.certs.auto = true → c.certs.certDir ≠ "") ∧
       (c.certs.auto = false → c.certs.certFile ≠ "" ∧ c.certs.keyFile ≠ "") ∧
       toURLsOk c.proxy = true)) ∧
    (∀ e, checkConf c = some e → runStartup c = .confError e) := by
  constructor
  · unfold checkConf
    cases hAuto : c.certs.auto with
    | true =>
      by_cases hDir : c.certs.certDir = ""
      · simp [hAuto, hDir]
      · by_cases hUrls : toURLsOk c.proxy
        · simp [hAuto, hDir, hUrls]
        · simp [hAuto, hDir, hUrls]
    | false =>
      by_cases hCert : c.certs.certFile = ""
      · simp [hAuto, hCert]
      · by_cases hKey : c.certs.keyFile = ""
        · simp [hAuto, hCert, hKey]
        · by_cases hUrls : toURLsOk c.proxy
          · simp [hAuto, hCert, hKey, hUrls]
          · simp [hAuto, hCert, hKey, hUrls]
  · intro e he
    simp [runStartup, he]

/-- A well-formed Static configuration. -/
def confStaticEx : Conf :=
  { domains := ["a.example"], proxy := [("a.example", "http://127.0.0.1:9001")]
    certs := { auto := false, certDir := "", certFile := "/etc/cert.pem"
               keyFile := "/etc/key.pem" }
    wellKnown := "" }

/-- A Static configuration missing the key file. -/
def confNoKey : Conf :=
  { domains := [], proxy := []
    certs := { auto := false, certDir := "", certFile := "/etc/cert.pem", keyFile := "" }
    wellKnown := "" }

/-- Witness for the amended C7: a complete Static configuration passes,
and one missing the key file is rejected before the listeners start. -/
theorem checkConf_requirements_witness :
    checkConf confStaticEx = none ∧
    runStartup confNoKey =
      RunOutcome.confError "require certs.keyFile if certs.auto == false" := by
  constructor
  · exact (checkConf_requirements confStaticEx).1.mpr (by decide)
  · exact (checkConf_requirements confNoKey).2 _ (by decide)

/-! ### Helper lemmas for the errgroup model -/

theorem foldl_stepGroup_httpErr_isSome (evs : List GoEvent) :
    ∀ s : GroupState,
      ((evs.foldl stepGroup s).httpErr.isSome) = (s.httpErr.isSome || hasHttpExit evs) := by
  induction evs with
  | nil => intro s; simp [hasHttpExit]
  | cons ev rest ih =>
    intro s
    cases ev with
    | httpExit e =>
      simp only [List.foldl_cons, ih]
      by_cases hs : s.httpErr.isSome <;> simp [stepGroup, hs, hasHttpExit]
    | httpsExit e =>
      simp only [List.foldl_cons, ih]
      by_cases hs : s.httpsErr.isSome <;> simp [stepGroup, hs, hasHttpExit]

theorem foldl_stepGroup_httpsErr_isSome (evs : List GoEvent) :
    ∀ s : GroupState,
      ((evs.foldl stepGroup s).httpsErr.isSome) = (s.httpsErr.isSome || hasHttpsExit evs) := by
  induction evs with
  | nil => intro s; simp [hasHttpsExit]
  | cons ev rest ih =>
    intro s
    cases ev with
    | httpExit e =>
      simp only [List.foldl_cons, ih]
      by_cases hs : s.httpErr.isSome <;> simp [stepGroup, hs, hasHttpsExit]
    | httpsExit e =>
      simp only [List.foldl_cons, ih]
      by_cases hs : s.httpsErr.isSome <;> simp [stepGroup, hs, hasHttpsExit]

theorem foldl_stepGroup_httpErr_stable (evs : List GoEvent) :
    ∀ (s : GroupState) (e : String), s.httpErr = some e →
      (evs.foldl stepGroup s).httpErr = some e := by
  induction evs with
  | nil => intro s e h; simpa using h
  | cons ev rest ih =>
    intro s e h
    apply ih
    cases ev with
    | httpExit e2 => simp [stepGroup, h]
    | httpsExit e2 =>
      by_cases hs : s.httpsErr.isSome <;> simp [stepGroup, hs, h]

theorem foldl_stepGroup_httpsErr_stable (evs : List GoEvent) :
    ∀ (s : GroupState) (e : String), s.httpsErr = some e →
      (evs.foldl stepGroup s).httpsErr = some e := by
  induction evs with
  | nil => intro s e h; simpa using h
  | cons ev rest ih =>
    intro s e h
    apply ih
    cases ev with
    | httpExit e2 =>
      by_cases hs : s.httpErr.isSome <;> simp [stepGroup, hs, h]
    | httpsExit e2 => simp [stepGroup, h]

theorem foldl_stepGroup_firstErr_stable (evs : List GoEvent) :
    ∀ (s : GroupState) (e : String), s.firstErr = some e →
      (evs.foldl stepGroup s).firstErr = some e := by
  induction evs with
  | nil => intro s e h; simpa using h
  | cons ev rest ih =>
    intro s e h
    apply ih
    cases ev with
    | httpExit e2 =>
      by_cases hs : s.httpErr.isSome <;> simp [stepGroup, hs, h, recordErr]
    | httpsExit e2 =>
      by_cases hs : s.httpsErr.isSome <;> simp [stepGroup, hs, h, recordErr]

/-- Counterexample to C8 as stated: after the secure listener alone exits
with an error, `Wait` has NOT returned — the process does not terminate
while the plaintext listener is still running, because `errgroup.Wait`
blocks until all launched functions have returned. -/
theorem group_wait_single_failure_counterexample :
    (runGroup [GoEvent.httpsExit "tls: no certificate"]).httpsErr =
      some "tls: no certificate" ∧
    waitReturned (runGroup [GoEvent.httpsExit "tls: no certificate"]) = false := by
  refine ⟨rfl, rfl⟩

/-- Claim C8 (amended): the orchestrator runs the two listeners as
concurrent units and neither is restarted — each listener's recorded
outcome, once set, never changes.  `Wait` returns exactly when BOTH
listeners have returned (a single listener's failure does not by itself
terminate the process), and the group's recorded error is then the error
of whichever listener exited first. -/
theorem group_wait_first_error (evs : List GoEvent) :
    (waitReturned (runGroup evs) = (hasHttpExit evs && hasHttpsExit evs)) ∧
    (∀ ev rest, evs = ev :: rest → (runGroup evs).firstErr = some ev.err) ∧
    (∀ more : List GoEvent, ∀ e, (runGroup evs).httpErr = some e →
      (runGroup (evs ++ more)).httpErr = some e) ∧
    (∀ more : List GoEvent, ∀ e, (runGroup evs).httpsErr = some e →
      (runGroup (evs ++ more)).httpsErr = some e) := by
  refine ⟨?_, ?_, ?_, ?_⟩
  · simp [waitReturned, runGroup, foldl_stepGroup_httpErr_isSome,
      foldl_stepGroup_httpsErr_isSome, initGroup]
  · intro ev rest hevs
    subst hevs
    have h1 : (stepGroup initGroup ev).firstErr = some ev.err := by
      cases ev with
      | httpExit e => simp [stepGroup, initGroup, recordErr, GoEvent.err]
      | httpsExit e => simp [stepGroup, initGroup, recordErr, GoEvent.err]
    simpa [runGroup] using
      foldl_stepGroup_firstErr_stable rest (stepGroup initGroup ev) ev.err h1
  · intro more e h
    have happ : runGroup (evs ++ more) = more.foldl stepGroup (runGroup evs) := by
      simp [runGroup, List.foldl_append]
    rw [happ]
    exact foldl_stepGroup_httpErr_stable more (runGroup evs) e h
  · intro more e h
    have happ : runGroup (evs ++ more) = more.foldl stepGroup (runGroup evs) := by
      simp [runGroup, List.foldl_append]
    rw [happ]
    exact foldl_stepGroup_httpsErr_stable more (runGroup evs) e h

/-- Witness for the amended C8: with the secure listener failing first and
the plaintext listener failing later, `Wait` has returned, the recorded
error is the first one, and the earlier outcome survives the later
event. -/
theorem group_wait_first_error_witness :
    waitReturned (runGroup [GoEvent.httpsExit "err443", GoEvent.httpExit "err80"]) = true ∧
    (runGroup [GoEvent.httpsExit "err443", GoEvent.httpExit "err80"]).firstErr =
      some "err443" ∧
    (runGroup ([GoEvent.httpsExit "err443"] ++ [GoEvent.httpExit "err80"])).httpsErr =
      some "err443" := by
  refine ⟨?_, ?_, ?_⟩
  · rw [(group_wait_first_error [GoEvent.httpsExit "err443", GoEvent.httpExit "err80"]).1]
    rfl
  · exact (group_wait_first_error [GoEvent.httpsExit "err443", GoEvent.httpExit "err80"]).2.1
      (GoEvent.httpsExit "err443") [GoEvent.httpExit "err80"] rfl
  · exact (group_wait_first_error [GoEvent.httpsExit "err443"]).2.2.2
      [GoEvent.httpExit "err80"] "err443" rfl

/-- A route table with the bare hostname as its only key. -/
def proxySingle : Proxy := [("example.com", destA)]

/-- A request whose Host carries an explicit port. -/
def reqPort : Request :=
  { host := "example.com:443"
    url := { scheme := "", user := none, host := "", path := "/"
             rawQuery := "", fragment := "" }
    header := [], basicAuth := none, body := "" }

/-- Claim C9: host routing is exact string matching against the route
table keys — lookup fails precisely when the Host differs from every
configured key — and a request with an unmatched Host receives the 502
rejection on both listeners. -/
theorem host_match_exact (proxy : Proxy) (r : Request)
    (h : ∀ kv ∈ proxy, kv.1 ≠ r.host) :
    lookupHost proxy r.host = none ∧
    httpHandler proxy r = .error 502 ∧
    httpsHandler proxy r = .error 502 := by
  have hn := lookupHost_eq_none proxy r.host h
  exact ⟨hn, by simp [httpHandler, hn], by simp [httpsHandler, hn]⟩

/-- Witness for C9: `example.com:443` differs from the configured key
`example.com`, so it is unmapped and rejected with 502 on both
listeners. -/
theorem host_match_exact_witness :
    lookupHost proxySingle reqPort.host = none ∧
    httpHandler proxySingle reqPort = .error 502 ∧
    httpsHandler proxySingle reqPort = .error 502 :=
  host_match_exact proxySingle reqPort (by decide)

/-- Claim C10: when a well-known directory is configured, every plaintext
request whose path falls under `/.well-known/` is served from the static
file responder — regardless of the Host header, so neither the
unmapped-host rejection nor the HTTPS redirect applies to it; when no
well-known directory is configured, such requests get the ordinary
`httpHandler` treatment. -/
theorem wellknown_dispatch (wk : String) (proxy : Proxy) (r : Request) :
    (wk ≠ "" → pathUnder wellKnownPattern r.url.path = true →
      muxDispatch wk proxy r = .wellKnownFile (r.url.path.drop wellKnownPattern.length)) ∧
    (wk = "" → muxDispatch wk proxy r = .plain (httpHandler proxy r)) := by
  constructor
  · intro hwk hpre
    simp [muxDispatch, hwk, hpre]
  · intro hwk
    simp [muxDispatch, hwk]

/-- A request to an UNMAPPED host for a path under the well-known
subtree. -/
def reqWellKnown : Request :=
  { host := "unknown.org"
    url := { scheme := "", user := none, host := ""
             path := "/.well-known/acme-challenge/token1", rawQuery := "", fragment := "" }
    header := [], basicAuth := none, body := "" }

/-- Witness for C10: with a directory configured, the unmapped-host
request under `/.well-known/` is served as a file at the stripped path;
with none configured, the same request gets the 502 rejection. -/
theorem wellknown_dispatch_witness :
    muxDispatch "/srv/wellknown" proxyEx reqWellKnown =
      MuxResponse.wellKnownFile "acme-challenge/token1" ∧
    muxDispatch "" proxyEx reqWellKnown =
      MuxResponse.plain (HttpResponse.error 502) := by
  constructor
  · have h := (wellknown_dispatch "/srv/wellknown" proxyEx reqWellKnown).1
      (by decide) (by decide)
    rw [h]
    rfl
  · have h := (wellknown_dispatch "" proxyEx reqWellKnown).2 rfl
    rw [h]
    rfl

end Httpserver
